import Mathlib

/-!
Verification of the claude-langfuse-go monitoring pipeline.

This file embeds, as executable Lean definitions, the core of the Go
repository: the JSON content extraction and message processing of
`internal/monitor/monitor.go`, the batching delivery client of
`internal/langfuse`, and the debounce/startup logic of
`internal/watcher/watcher.go` together with the startup sequence of
`cmd/claude-langfuse/main.go`.  Machine integers are modelled as `Nat`
with explicit reduction modulo 2^32 where the Go code relies on 32-bit
wraparound (the MD5 session hash).  Filesystem and network effects are
modelled as explicit inputs (file contents as an optional list of lines,
HTTP outcomes as a status value).
-/

/-! ## JSON values

`encoding/json` values, as produced by `json.Unmarshal` on a JSONL line.
Numbers keep their raw source text, matching `json.RawMessage` round
tripping (Go's `json.Indent` preserves the original number text).
-/

inductive JsonVal where
  | null : JsonVal
  | bool (b : Bool) : JsonVal
  | num (raw : String) : JsonVal
  | str (s : String) : JsonVal
  | arr (xs : List JsonVal) : JsonVal
  | obj (fields : List (String × JsonVal)) : JsonVal
deriving Repr

/-- Hex digit for escape rendering. -/
def hexChar (n : Nat) : Char :=
  if n < 10 then Char.ofNat (48 + n) else Char.ofNat (87 + n)

/-- Render one character inside a JSON string literal (canonical escaping). -/
def escapeJsonChar (c : Char) : String :=
  if c = '"' then "\\\""
  else if c = '\\' then "\\\\"
  else if c = '\n' then "\\n"
  else if c = '\t' then "\\t"
  else if c = '\r' then "\\r"
  else if c.toNat < 32 then
    "\\u00" ++ String.mk [hexChar (c.toNat / 16), hexChar (c.toNat % 16)]
  else String.mk [c]

/-- Render a JSON string literal with quotes. -/
def renderJsonString (s : String) : String :=
  "\"" ++ String.join (s.data.map escapeJsonChar) ++ "\""

/-- Indentation used by `json.Indent(dst, src, "", "  ")`: two spaces per depth. -/
def jsonIndentPad (depth : Nat) : String :=
  String.join (List.replicate depth "  ")

mutual

/-- Pretty printing following Go `json.Indent` with empty line prefix and
two-space indent: each array element / object member goes on its own line,
object members render as `"key": value`, empty composites stay compact. -/
def indentJson (depth : Nat) : JsonVal → String
  | .null => "null"
  | .bool true => "true"
  | .bool false => "false"
  | .num raw => raw
  | .str s => renderJsonString s
  | .arr [] => "[]"
  | .arr (x :: xs) =>
      "[\n" ++ indentJsonArr (depth + 1) (x :: xs) ++ "\n" ++ jsonIndentPad depth ++ "]"
  | .obj [] => "\x7b\x7d"
  | .obj (f :: fs) =>
      "\x7b\n" ++ indentJsonObj (depth + 1) (f :: fs) ++ "\n" ++ jsonIndentPad depth ++ "\x7d"

def indentJsonArr (depth : Nat) : List JsonVal → String
  | [] => ""
  | [x] => jsonIndentPad depth ++ indentJson depth x
  | x :: y :: ys =>
      jsonIndentPad depth ++ indentJson depth x ++ ",\n" ++ indentJsonArr depth (y :: ys)

def indentJsonObj (depth : Nat) : List (String × JsonVal) → String
  | [] => ""
  | [(k, v)] => jsonIndentPad depth ++ renderJsonString k ++ ": " ++ indentJson depth v
  | (k, v) :: g :: gs =>
      jsonIndentPad depth ++ renderJsonString k ++ ": " ++ indentJson depth v
        ++ ",\n" ++ indentJsonObj depth (g :: gs)

end

/-! ## JSON parsing

A recursive-descent parser for the JSON accepted by `json.Unmarshal`,
over the line's character list, with fuel bounded by the input length.
-/

/-- JSON insignificant whitespace. -/
def isJsonWs (c : Char) : Bool :=
  c = ' ' || c = '\t' || c = '\n' || c = '\r'

def skipJsonWs : List Char → List Char
  | [] => []
  | c :: cs => if isJsonWs c then skipJsonWs cs else c :: cs

def hexVal (c : Char) : Option Nat :=
  if '0' ≤ c ∧ c ≤ '9' then some (c.toNat - 48)
  else if 'a' ≤ c ∧ c ≤ 'f' then some (c.toNat - 87)
  else if 'A' ≤ c ∧ c ≤ 'F' then some (c.toNat - 55)
  else none

/-- Parse the body of a JSON string after the opening quote. -/
def parseStringBody (fuel : Nat) (cs : List Char) (acc : List Char) :
    Option (String × List Char) :=
  match fuel, cs with
  | 0, _ => none
  | _, [] => none
  | fuel + 1, c :: rest =>
    if c = '"' then some (String.mk acc.reverse, rest)
    else if c = '\\' then
      match rest with
      | [] => none
      | e :: rest2 =>
        if e = '"' then parseStringBody fuel rest2 ('"' :: acc)
        else if e = '\\' then parseStringBody fuel rest2 ('\\' :: acc)
        else if e = '/' then parseStringBody fuel rest2 ('/' :: acc)
        else if e = 'n' then parseStringBody fuel rest2 ('\n' :: acc)
        else if e = 't' then parseStringBody fuel rest2 ('\t' :: acc)
        else if e = 'r' then parseStringBody fuel rest2 ('\r' :: acc)
        else if e = 'b' then parseStringBody fuel rest2 (Char.ofNat 8 :: acc)
        else if e = 'f' then parseStringBody fuel rest2 (Char.ofNat 12 :: acc)
        else if e = 'u' then
          match rest2 with
          | h1 :: h2 :: h3 :: h4 :: rest3 =>
            match hexVal h1, hexVal h2, hexVal h3, hexVal h4 with
            | some a, some b, some c2, some d =>
              parseStringBody fuel rest3
                (Char.ofNat (a * 4096 + b * 256 + c2 * 16 + d) :: acc)
            | _, _, _, _ => none
          | _ => none
        else none
    else parseStringBody fuel rest (c :: acc)

def isDigitChar (c : Char) : Bool := '0' ≤ c ∧ c ≤ '9'

/-- Take a maximal run of characters satisfying `p`. -/
def takeWhileChars (p : Char → Bool) : List Char → List Char × List Char
  | [] => ([], [])
  | c :: cs =>
    if p c then
      let (tk, rest) := takeWhileChars p cs
      (c :: tk, rest)
    else ([], c :: cs)

/-- Parse a JSON number, returning its raw text. -/
def parseNumber (cs : List Char) : Option (String × List Char) :=
  let (sign, cs1) :=
    match cs with
    | '-' :: rest => (['-'], rest)
    | _ => (([] : List Char), cs)
  let (intPart, cs2) := takeWhileChars isDigitChar cs1
  if intPart.isEmpty then none
  else
    let (fracPart, cs3) :=
      match cs2 with
      | '.' :: rest =>
        let (ds, r) := takeWhileChars isDigitChar rest
        if ds.isEmpty then (([] : List Char), cs2) else ('.' :: ds, r)
      | _ => ([], cs2)
    let (expPart, cs4) :=
      match cs3 with
      | 'e' :: rest =>
        let (sg, r0) := match rest with
          | '+' :: r => (['+'], r)
          | '-' :: r => (['-'], r)
          | _ => (([] : List Char), rest)
        let (ds, r) := takeWhileChars isDigitChar r0
        if ds.isEmpty then (([] : List Char), cs3) else ('e' :: (sg ++ ds), r)
      | 'E' :: rest =>
        let (sg, r0) := match rest with
          | '+' :: r => (['+'], r)
          | '-' :: r => (['-'], r)
          | _ => (([] : List Char), rest)
        let (ds, r) := takeWhileChars isDigitChar r0
        if ds.isEmpty then (([] : List Char), cs3) else ('E' :: (sg ++ ds), r)
      | _ => ([], cs3)
    some (String.mk (sign ++ intPart ++ fracPart ++ expPart), cs4)

/-- Check that `lit` is a literal head of `cs` and return the remainder. -/
def matchLiteral (lit : List Char) (cs : List Char) : Option (List Char) :=
  match lit, cs with
  | [], rest => some rest
  | l :: ls, c :: rest => if c = l then matchLiteral ls rest else none
  | _ :: _, [] => none

mutual

def parseJsonVal (fuel : Nat) (cs : List Char) : Option (JsonVal × List Char) :=
  match fuel with
  | 0 => none
  | fuel + 1 =>
    match skipJsonWs cs with
    | [] => none
    | c :: rest =>
      if c = '"' then
        match parseStringBody (rest.length + 1) rest [] with
        | some (s, r) => some (.str s, r)
        | none => none
      else if c = '\x7b' then parseObjFields fuel rest true
      else if c = '[' then parseArrItems fuel rest true
      else if c = 't' then
        match matchLiteral ['r', 'u', 'e'] rest with
        | some r => some (.bool true, r)
        | none => none
      else if c = 'f' then
        match matchLiteral ['a', 'l', 's', 'e'] rest with
        | some r => some (.bool false, r)
        | none => none
      else if c = 'n' then
        match matchLiteral ['u', 'l', 'l'] rest with
        | some r => some (.null, r)
        | none => none
      else
        match parseNumber (c :: rest) with
        | some (raw, r) => some (.num raw, r)
        | none => none

/-- Parse array items after `[`; `first` is true before the first item. -/
def parseArrItems (fuel : Nat) (cs : List Char) (first : Bool) :
    Option (JsonVal × List Char) :=
  match fuel with
  | 0 => none
  | fuel + 1 =>
    match skipJsonWs cs with
    | [] => none
    | c :: rest =>
      if c = ']' ∧ first then some (.arr [], rest)
      else
        match parseJsonVal fuel (c :: rest) with
        | none => none
        | some (v, r1) =>
          match skipJsonWs r1 with
          | ']' :: r2 => some (.arr [v], r2)
          | ',' :: r2 =>
            match parseArrItems fuel r2 false with
            | some (.arr vs, r3) => some (.arr (v :: vs), r3)
            | _ => none
          | _ => none

/-- Parse object members after the opening brace; `first` is true before
the first member. -/
def parseObjFields (fuel : Nat) (cs : List Char) (first : Bool) :
    Option (JsonVal × List Char) :=
  match fuel with
  | 0 => none
  | fuel + 1 =>
    match skipJsonWs cs with
    | [] => none
    | c :: rest =>
      if c = '\x7d' ∧ first then some (.obj [], rest)
      else if c = '"' then
        match parseStringBody (rest.length + 1) rest [] with
        | none => none
        | some (k, r1) =>
          match skipJsonWs r1 with
          | ':' :: r2 =>
            match parseJsonVal fuel r2 with
            | none => none
            | some (v, r3) =>
              match skipJsonWs r3 with
              | '\x7d' :: r4 => some (.obj [(k, v)], r4)
              | ',' :: r4 =>
                match parseObjFields fuel r4 false with
                | some (.obj fs, r5) => some (.obj ((k, v) :: fs), r5)
                | _ => none
              | _ => none
          | _ => none
      else none

end

/-- Parse a whole line as one JSON value, as `json.Unmarshal` does:
the entire input must be a single JSON value (plus whitespace). -/
def parseJson (s : String) : Option JsonVal :=
  match parseJsonVal (s.length + 1) s.data with
  | some (v, rest) => if (skipJsonWs rest).isEmpty then some v else none
  | none => none


/-! ## MD5

`crypto/md5` as used for session identifiers: the RFC 1321 digest over the
UTF-8 bytes of the input string, rendered as 32 lowercase hex characters
(`hex.EncodeToString(hash[:])`).  32-bit arithmetic is `Nat` reduced
modulo 2^32.
-/

def u32mod : Nat := 4294967296

def not32 (x : Nat) : Nat := x ^^^ 4294967295

def rotl32 (x c : Nat) : Nat :=
  (((x <<< c) % u32mod) ||| (x >>> (32 - c)))

/-- The 64 MD5 sine-derived constants. -/
def md5K : List Nat :=
  [0xd76aa478, 0xe8c7b756, 0x242070db, 0xc1bdceee,
   0xf57c0faf, 0x4787c62a, 0xa8304613, 0xfd469501,
   0x698098d8, 0x8b44f7af, 0xffff5bb1, 0x895cd7be,
   0x6b901122, 0xfd987193, 0xa679438e, 0x49b40821,
   0xf61e2562, 0xc040b340, 0x265e5a51, 0xe9b6c7aa,
   0xd62f105d, 0x02441453, 0xd8a1e681, 0xe7d3fbc8,
   0x21e1cde6, 0xc33707d6, 0xf4d50d87, 0x455a14ed,
   0xa9e3e905, 0xfcefa3f8, 0x676f02d9, 0x8d2a4c8a,
   0xfffa3942, 0x8771f681, 0x6d9d6122, 0xfde5380c,
   0xa4beea44, 0x4bdecfa9, 0xf6bb4b60, 0xbebfbc70,
   0x289b7ec6, 0xeaa127fa, 0xd4ef3085, 0x04881d05,
   0xd9d4d039, 0xe6db99e5, 0x1fa27cf8, 0xc4ac5665,
   0xf4292244, 0x432aff97, 0xab9423a7, 0xfc93a039,
   0x655b59c3, 0x8f0ccc92, 0xffeff47d, 0x85845dd1,
   0x6fa87e4f, 0xfe2ce6e0, 0xa3014314, 0x4e0811a1,
   0xf7537e82, 0xbd3af235, 0x2ad7d2bb, 0xeb86d391]

/-- The 64 per-round left-rotation amounts. -/
def md5S : List Nat :=
  [7, 12, 17, 22, 7, 12, 17, 22, 7, 12, 17, 22, 7, 12, 17, 22,
   5, 9, 14, 20, 5, 9, 14, 20, 5, 9, 14, 20, 5, 9, 14, 20,
   4, 11, 16, 23, 4, 11, 16, 23, 4, 11, 16, 23, 4, 11, 16, 23,
   6, 10, 15, 21, 6, 10, 15, 21, 6, 10, 15, 21, 6, 10, 15, 21]

/-- Little-endian 32-bit word `g` of a 64-byte chunk. -/
def md5Word (chunk : List Nat) (g : Nat) : Nat :=
  chunk.getD (4 * g) 0 + 256 * chunk.getD (4 * g + 1) 0 +
    65536 * chunk.getD (4 * g + 2) 0 + 16777216 * chunk.getD (4 * g + 3) 0

/-- One MD5 round on the running registers. -/
def md5Round (chunk : List Nat) (st : Nat × Nat × Nat × Nat) (i : Nat) :
    Nat × Nat × Nat × Nat :=
  let (a, b, c, d) := st
  let fg :=
    if i < 16 then ((b &&& c) ||| (not32 b &&& d), i)
    else if i < 32 then ((d &&& b) ||| (not32 d &&& c), (5 * i + 1) % 16)
    else if i < 48 then (b ^^^ c ^^^ d, (3 * i + 5) % 16)
    else (c ^^^ (b ||| not32 d), (7 * i) % 16)
  let f := (fg.1 + a + md5K.getD i 0 + md5Word chunk fg.2) % u32mod
  (d, (b + rotl32 f (md5S.getD i 0)) % u32mod, b, c)

/-- Process one 64-byte chunk, updating the four state words. -/
def md5Chunk (st : Nat × Nat × Nat × Nat) (chunk : List Nat) :
    Nat × Nat × Nat × Nat :=
  let r := (List.range 64).foldl (md5Round chunk) st
  ((st.1 + r.1) % u32mod, (st.2.1 + r.2.1) % u32mod,
   (st.2.2.1 + r.2.2.1) % u32mod, (st.2.2.2 + r.2.2.2) % u32mod)

/-- Split a byte list into 64-byte chunks (fuel-bounded recursion). -/
def toChunksAux (fuel : Nat) (l : List Nat) : List (List Nat) :=
  match fuel with
  | 0 => []
  | fuel + 1 =>
    match l with
    | [] => []
    | _ => l.take 64 :: toChunksAux fuel (l.drop 64)

def toChunks (l : List Nat) : List (List Nat) := toChunksAux (l.length + 1) l

/-- Little-endian bytes of a 64-bit length value. -/
def len64LE (n : Nat) : List Nat :=
  [n % 256, (n / 256) % 256, (n / 65536) % 256, (n / 16777216) % 256,
   (n / 4294967296) % 256, (n / 1099511627776) % 256,
   (n / 281474976710656) % 256, (n / 72057594037927936) % 256]

/-- MD5 padding: 0x80, zeros to 56 mod 64, then the bit length. -/
def md5Pad (msg : List Nat) : List Nat :=
  let len := msg.length
  let zeros := (119 - (len % 64)) % 64
  msg ++ 128 :: List.replicate zeros 0 ++ len64LE ((len * 8) % 18446744073709551616)

def wordLEBytes (w : Nat) : List Nat :=
  [w % 256, (w / 256) % 256, (w / 65536) % 256, (w / 16777216) % 256]

def byteHex (b : Nat) : String := String.mk [hexChar (b / 16), hexChar (b % 16)]

/-- MD5 digest of a byte list as lowercase hex. -/
def md5HexBytes (msg : List Nat) : String :=
  let init : Nat × Nat × Nat × Nat :=
    (0x67452301, 0xefcdab89, 0x98badcfe, 0x10325476)
  let fin := (toChunks (md5Pad msg)).foldl md5Chunk init
  let bytes := wordLEBytes fin.1 ++ wordLEBytes fin.2.1 ++
    wordLEBytes fin.2.2.1 ++ wordLEBytes fin.2.2.2
  String.join (bytes.map byteHex)

/-- UTF-8 bytes of a string. -/
def strBytes (s : String) : List Nat := s.toUTF8.data.toList.map UInt8.toNat

/-- MD5 of a string, as `hex.EncodeToString(md5.Sum([]byte(s))[:])`. -/
def md5Hex (s : String) : String := md5HexBytes (strBytes s)


/-! ## Strings: Go helpers

`strings.TrimSpace`-based blank-line test, `strings.TrimSuffix`,
`strings.ReplaceAll`, and the byte length of a line as seen by
`bufio.Scanner`.
-/

/-- `unicode.IsSpace` for the code points relevant to conversation logs. -/
def goIsSpace (c : Char) : Bool :=
  c = ' ' || c = '\t' || c = '\n' || c = Char.ofNat 11 || c = Char.ofNat 12 ||
    c = '\r' || c = Char.ofNat 133 || c = Char.ofNat 160

/-- `strings.TrimSpace(line) == ""`. -/
def isBlankLine (s : String) : Bool := s.data.all goIsSpace

/-- `strings.HasSuffix` over the character list. -/
def strEndsWith (s suff : String) : Bool :=
  s.data.drop (s.data.length - suff.data.length) == suff.data

/-- `strings.TrimSuffix`. -/
def trimSuffixStr (s suff : String) : String :=
  if strEndsWith s suff then
    String.mk (s.data.take (s.data.length - suff.data.length))
  else s

/-- `strings.Split(s, sep)` for a single-character separator: split the
character list at every occurrence of `sep` (empty fields preserved,
result always non-empty). -/
def splitOnChar (sep : Char) : List Char → List (List Char)
  | [] => [[]]
  | c :: cs =>
    match splitOnChar sep cs with
    | [] => [[]]
    | g :: gs => if c = sep then [] :: g :: gs else (c :: g) :: gs

/-- `strings.Split(filepath, string(os.PathSeparator))` with the `/`
separator of the target platforms. -/
def splitPath (s : String) : List String := (splitOnChar '/' s.data).map String.mk

/-- UTF-8 byte length of a line. -/
def bytesLen : List Char → Nat
  | [] => 0
  | c :: cs => c.utf8Size + bytesLen cs

def lineBytesLen (s : String) : Nat := bytesLen s.data

/-- `scanner.Buffer(buf, 1024*1024)`: the scanner's maximum token size.
A line whose byte length exceeds this makes `scanner.Scan` fail with
`ErrTooLong`, ending the read loop (the error is not inspected by the
caller).  At exactly the limit the Go behaviour additionally depends on
newline placement; no property below touches that boundary. -/
def scannerMaxLine : Nat := 1048576

/-! ## Message payload unmarshalling (`monitor.go` types)

`Entry`, `MessageContent` and `ContentBlock` with the decoding rules of
`encoding/json`: absent or `null` string fields decode to `""`, a field
of the wrong type fails the whole unmarshal, unknown fields are ignored,
for a duplicated key the last occurrence wins.
-/

structure ContentBlock where
  type : String
  text : String
  name : String
  input : Option JsonVal
  content : String
  toolUseId : String
deriving Repr

structure MessageContent where
  text : String
  content : List ContentBlock
  model : String
deriving Repr

structure Entry where
  type : String
  uuid : String
  parentUuid : String
  timestamp : String
  message : Option JsonVal
  gitBranch : String
  cwd : String
  requestId : String
deriving Repr

/-- Last-wins field lookup in a JSON object. -/
def jsonField : List (String × JsonVal) → String → Option JsonVal
  | [], _ => none
  | (k, v) :: rest, key =>
    match jsonField rest key with
    | some v2 => some v2
    | none => if k = key then some v else none

/-- Decode a string-typed field: absent or `null` gives `""`, a
non-string value is an unmarshal error (`none`). -/
def strField (fields : List (String × JsonVal)) (key : String) : Option String :=
  match jsonField fields key with
  | none => some ""
  | some .null => some ""
  | some (.str s) => some s
  | some _ => none

/-- Decode one element of the `content` array into a `ContentBlock`. -/
def unmarshalBlock (j : JsonVal) : Option ContentBlock :=
  match j with
  | .null => some ⟨"", "", "", none, "", ""⟩
  | .obj fields => do
    let type ← strField fields "type"
    let text ← strField fields "text"
    let name ← strField fields "name"
    let content ← strField fields "content"
    let toolUseId ← strField fields "tool_use_id"
    some ⟨type, text, name, jsonField fields "input", content, toolUseId⟩
  | _ => none

/-- Decode a payload into `MessageContent`. -/
def unmarshalMessageContent (j : JsonVal) : Option MessageContent :=
  match j with
  | .null => some ⟨"", [], ""⟩
  | .obj fields => do
    let text ← strField fields "text"
    let model ← strField fields "model"
    let content ←
      match jsonField fields "content" with
      | none => some ([] : List ContentBlock)
      | some .null => some ([] : List ContentBlock)
      | some (.arr xs) => xs.mapM unmarshalBlock
      | some _ => none
    some ⟨text, content, model⟩
  | _ => none

/-- Decode one JSONL line's JSON value into an `Entry`. -/
def unmarshalEntry (j : JsonVal) : Option Entry :=
  match j with
  | .null => some ⟨"", "", "", "", none, "", "", ""⟩
  | .obj fields => do
    let type ← strField fields "type"
    let uuid ← strField fields "uuid"
    let parentUuid ← strField fields "parentUuid"
    let timestamp ← strField fields "timestamp"
    let gitBranch ← strField fields "gitBranch"
    let cwd ← strField fields "cwd"
    let requestId ← strField fields "requestId"
    some ⟨type, uuid, parentUuid, timestamp, jsonField fields "message",
      gitBranch, cwd, requestId⟩
  | _ => none

/-- `json.Unmarshal([]byte(line), &entry)` on one line. -/
def parseEntryLine (line : String) : Option Entry :=
  (parseJson line).bind unmarshalEntry

/-! ## Content extraction (`monitor.extractContent`, `monitor.extractModel`) -/

/-- The contribution of one content block, the `switch block.Type` body:
`text` appends its non-empty text, `tool_use` always appends the
formatted tool section, `tool_result` appends its non-empty content,
anything else falls back to the block's text field. -/
def blockPart (b : ContentBlock) : List String :=
  match b.type with
  | "text" => if b.text ≠ "" then [b.text] else []
  | "tool_use" =>
    let inputStr :=
      match b.input with
      | some v => indentJson 0 v
      | none => ""
    ["[Tool: " ++ b.name ++ "]\n" ++ inputStr]
  | "tool_result" => if b.content ≠ "" then [b.content] else []
  | _ => if b.text ≠ "" then [b.text] else []

/-- The `parts` accumulated over the content array. -/
def collectParts : List ContentBlock → List String
  | [] => []
  | b :: rest => blockPart b ++ collectParts rest

/-- The part of `extractContent` applied after a successful unmarshal
into `MessageContent`. -/
def extractFromContent (mc : MessageContent) : String :=
  if mc.content.length > 0 then
    let parts := collectParts mc.content
    if parts.length > 0 then String.intercalate "\n\n" parts
    else if mc.text ≠ "" then mc.text else ""
  else if mc.text ≠ "" then mc.text else ""

/-- `monitor.extractContent`: empty raw message gives `""`; a JSON value
that unmarshals as a bare string (a string literal, or `null` which
leaves the zero string) is returned as is; otherwise the payload is
unmarshalled as `MessageContent` (failure gives `""`) and processed. -/
def extractContent (raw : Option JsonVal) : String :=
  match raw with
  | none => ""
  | some (.str s) => s
  | some .null => ""
  | some j =>
    match unmarshalMessageContent j with
    | none => ""
    | some mc => extractFromContent mc

/-- `monitor.extractModel`: the payload's `model` field unless absent,
unmarshal fails, or it is the sentinel `<synthetic>`. -/
def extractModel (raw : Option JsonVal) : String :=
  match raw with
  | none => ""
  | some j =>
    match unmarshalMessageContent j with
    | none => ""
    | some mc =>
      if mc.model ≠ "" ∧ mc.model ≠ "<synthetic>" then mc.model else ""

/-! ## Langfuse client (`internal/langfuse/client.go`) -/

/-- A timestamp value as computed by `ProcessMessage`: either the
entry's RFC-3339 timestamp (when non-empty and parseable) or the wall
clock at processing time. -/
inductive TimeVal where
  | parsedTime (s : String) : TimeVal
  | wallClock : TimeVal
deriving Repr, DecidableEq

/-- Structural RFC-3339 well-formedness, the shape accepted by
`time.Parse(time.RFC3339, ·)`. -/
def rfc3339Shape (s : String) : Bool :=
  match s.data with
  | y1 :: y2 :: y3 :: y4 :: '-' :: m1 :: m2 :: '-' :: d1 :: d2 :: 'T' ::
      h1 :: h2 :: ':' :: mi1 :: mi2 :: ':' :: s1 :: s2 :: rest =>
    ([y1, y2, y3, y4, m1, m2, d1, d2, h1, h2, mi1, mi2, s1, s2].all isDigitChar) &&
    (let rest2 :=
      match rest with
      | '.' :: r =>
        let (frac, r2) := takeWhileChars isDigitChar r
        if frac.isEmpty then '.' :: r else r2
      | _ => rest
    match rest2 with
    | ['Z'] => true
    | '+' :: a1 :: a2 :: ':' :: b1 :: b2 :: [] => [a1, a2, b1, b2].all isDigitChar
    | '-' :: a1 :: a2 :: ':' :: b1 :: b2 :: [] => [a1, a2, b1, b2].all isDigitChar
    | _ => false)
  | _ => false

/-- Timestamp resolution in `ProcessMessage` step 5. -/
def resolveTimestamp (ts : String) : TimeVal :=
  if ts ≠ "" ∧ rfc3339Shape ts then .parsedTime ts else .wallClock

structure Trace where
  id : String
  name : String
  sessionId : String
  userId : String
  metadata : List (String × String)
  input : String
  timestamp : TimeVal
deriving Repr, DecidableEq

structure Generation where
  id : String
  traceId : String
  name : String
  model : String
  metadata : List (String × String)
  output : String
  startTime : TimeVal
  endTime : TimeVal
deriving Repr, DecidableEq

inductive EventBody where
  | trace (t : Trace) : EventBody
  | gen (g : Generation) : EventBody
deriving Repr, DecidableEq

/-- One element of the batch payload. -/
structure Event where
  type : String
  body : EventBody
deriving Repr, DecidableEq

def traceEvent (t : Trace) : Event := ⟨"trace-create", .trace t⟩

def genEvent (g : Generation) : Event := ⟨"generation-create", .gen g⟩

structure Client where
  baseURL : String
  publicKey : String
  secretKey : String
  events : List Event
  batchSize : Nat
deriving Repr, DecidableEq

/-- `langfuse.NewClient`. -/
def newClient (baseURL publicKey secretKey : String) : Client :=
  ⟨baseURL, publicKey, secretKey, [], 10⟩

/-- Outcome of the single HTTP POST a flush issues: a transport error or
a response status code. -/
inductive HttpOutcome where
  | transportError : HttpOutcome
  | status (code : Nat) : HttpOutcome
deriving Repr, DecidableEq

/-- `flushLocked`: no-op success on an empty buffer; otherwise one POST
of the whole batch; transport failure or status `>= 400` returns an
error leaving the buffer untouched; success clears the whole buffer.
(`json.Marshal` cannot fail on these value shapes.) -/
def flushLocked (c : Client) (resp : HttpOutcome) : Client × Except String Unit :=
  if c.events.isEmpty then (c, .ok ())
  else
    match resp with
    | .transportError => (c, .error "failed to send request")
    | .status code =>
      if 400 ≤ code then
        (c, .error ("langfuse API error: status " ++ toString code))
      else ({ c with events := [] }, .ok ())

/-- `Client.Flush`. -/
def clientFlush (c : Client) (resp : HttpOutcome) : Client × Except String Unit :=
  flushLocked c resp

/-- `CreateTrace`: append the event; when the buffer has reached
`batchSize` run `flushLocked` before returning (the returned `Bool`
records whether a flush was attempted). -/
def createTrace (c : Client) (t : Trace) (resp : HttpOutcome) :
    Client × Except String Unit × Bool :=
  let c1 := { c with events := c.events ++ [traceEvent t] }
  if c1.events.length ≥ c.batchSize then
    let r := flushLocked c1 resp
    (r.1, r.2, true)
  else (c1, .ok (), false)

/-- `CreateGeneration`, same shape as `CreateTrace`. -/
def createGeneration (c : Client) (g : Generation) (resp : HttpOutcome) :
    Client × Except String Unit × Bool :=
  let c1 := { c with events := c.events ++ [genEvent g] }
  if c1.events.length ≥ c.batchSize then
    let r := flushLocked c1 resp
    (r.1, r.2, true)
  else (c1, .ok (), false)

/-! ## Monitor (`internal/monitor/monitor.go`) -/

structure Options where
  historyHours : Nat
  daemon : Bool
  dryRun : Bool
  quiet : Bool
deriving Repr, DecidableEq

structure Config where
  host : String
  publicKey : String
  secretKey : String
  userTraceName : String
  assistantTraceName : String
  userId : String
  model : String
  source : String
deriving Repr, DecidableEq

structure Monitor where
  options : Options
  config : Config
  client : Option Client
  processedMessages : List String
  conversationSessions : List (String × String)
  messageCountUser : Nat
  messageCountAssistant : Nat
deriving Repr, DecidableEq

/-- `Monitor.MessageStats`. -/
def messageStats (m : Monitor) : Nat × Nat :=
  (m.messageCountUser, m.messageCountAssistant)

/-- `ProcessMessage`.  The second component of the result is the list of
events handed to the delivery client during this call (empty in dry-run
mode or without a client); `resp` is the outcome of the HTTP POST should
the enqueue trigger a threshold flush.  Errors returned by the client
are logged and discarded by the source, so they do not appear in the
state. -/
def processMessage (m : Monitor) (resp : HttpOutcome) (entry : Entry)
    (sessionId projectPath conversationId : String) : Monitor × List Event :=
  if ¬(entry.type = "user" ∨ entry.type = "assistant") then (m, [])
  else if entry.uuid = "" then (m, [])
  else if entry.uuid ∈ m.processedMessages then (m, [])
  else
    let text := extractContent entry.message
    let ts := resolveTimestamp entry.timestamp
    let m1 := { m with processedMessages := entry.uuid :: m.processedMessages }
    let m2 :=
      if entry.type = "user" then
        { m1 with messageCountUser := m1.messageCountUser + 1 }
      else
        { m1 with messageCountAssistant := m1.messageCountAssistant + 1 }
    if m2.options.dryRun then (m2, [])
    else
      match m2.client with
      | none => (m2, [])
      | some c =>
        if entry.type = "user" then
          let tr : Trace :=
            { id := entry.uuid, name := m2.config.userTraceName,
              sessionId := sessionId, userId := m2.config.userId,
              metadata := [("project", projectPath),
                           ("conversationId", conversationId),
                           ("gitBranch", entry.gitBranch),
                           ("cwd", entry.cwd),
                           ("messageType", entry.type),
                           ("source", m2.config.source)],
              input := text, timestamp := ts }
          let r := createTrace c tr resp
          ({ m2 with client := some r.1 }, [traceEvent tr])
        else
          let modelStr :=
            let em := extractModel entry.message
            if em = "" then m2.config.model else em
          let g : Generation :=
            { id := entry.uuid, traceId := entry.parentUuid,
              name := m2.config.assistantTraceName, model := modelStr,
              metadata := [("project", projectPath),
                           ("conversationId", conversationId),
                           ("requestId", entry.requestId),
                           ("messageType", entry.type),
                           ("source", m2.config.source)],
              output := text, startTime := ts, endTime := ts }
          let r := createGeneration c g resp
          ({ m2 with client := some r.1 }, [genEvent g])

/-! ## Identity derivation and conversation file processing -/

/-- `strings.ReplaceAll(encodedProject, "-", "/")` (a single-character
pattern: every `-` becomes `/`). -/
def decodeProjectPath (encoded : String) : String :=
  String.mk (encoded.data.map (fun c => if c = '-' then '/' else c))

/-- Session id: MD5 hex of `projectPath + ":" + conversationID`. -/
def sessionIdOf (projectPath conversationId : String) : String :=
  md5Hex (projectPath ++ ":" ++ conversationId)

/-- Path → identity derivation of `ProcessConversationFile`: split on the
path separator, find the first segment equal to `"projects"`; reject if
absent or followed by fewer than two segments; decode the next segment
as the project path, and strip `".jsonl"` from the last segment for the
conversation id. -/
def deriveIdentity (fp : String) : Option (String × String) :=
  let parts := splitPath fp
  match parts.findIdx? (fun p => p == "projects") with
  | none => none
  | some i =>
    if i + 2 ≥ parts.length then none
    else some (decodeProjectPath (parts.getD (i + 1) ""),
               trimSuffixStr (parts.getLastD "") ".jsonl")

/-- The scanner loop of `ProcessConversationFile`: stop on an oversized
line (`bufio.Scanner` `ErrTooLong`, error ignored), skip blank lines,
skip lines that fail to parse, process the rest. -/
def processLines (m : Monitor) (resp : HttpOutcome)
    (sessionId projectPath conversationId : String) :
    List String → Monitor × List Event
  | [] => (m, [])
  | line :: rest =>
    if scannerMaxLine < lineBytesLen line then (m, [])
    else if isBlankLine line then
      processLines m resp sessionId projectPath conversationId rest
    else
      match parseEntryLine line with
      | none => processLines m resp sessionId projectPath conversationId rest
      | some entry =>
        let r := processMessage m resp entry sessionId projectPath conversationId
        let r2 := processLines r.1 resp sessionId projectPath conversationId rest
        (r2.1, r.2 ++ r2.2)

/-- `ProcessConversationFile`.  `file` is the external input: `none`
models an unreadable file (the open error is printed and swallowed),
`some lines` its contents.  The session id is derived and cached before
the file is opened. -/
def processConversationFile (m : Monitor) (resp : HttpOutcome) (fp : String)
    (file : Option (List String)) : Monitor × List Event :=
  match deriveIdentity fp with
  | none => (m, [])
  | some (projectPath, conversationId) =>
    let cached := m.conversationSessions.lookup fp
    let sessionId :=
      match cached with
      | some sid => sid
      | none => sessionIdOf projectPath conversationId
    let m1 :=
      match cached with
      | some _ => m
      | none => { m with conversationSessions := (fp, sessionId) :: m.conversationSessions }
    match file with
    | none => (m1, [])
    | some lines => processLines m1 resp sessionId projectPath conversationId lines

/-! ## Watcher debounce (`internal/watcher/watcher.go`)

The debounce table `pendingFiles : map[string]time.Time` is modelled as
an association list with distinct keys; times are naturals (a monotone
millisecond clock).
-/

/-- Insert-or-replace on the pending table (`w.pendingFiles[name] = now`). -/
def setAssoc : List (String × Nat) → String → Nat → List (String × Nat)
  | [], k, v => [(k, v)]
  | (k2, v2) :: rest, k, v =>
    if k2 = k then (k, v) :: rest else (k2, v2) :: setAssoc rest k v

structure WatcherState where
  pendingFiles : List (String × Nat)
  debounceMs : Nat
deriving Repr, DecidableEq

/-- The debounce state created by `watcher.New` (500 ms window). -/
def newWatcherState : WatcherState := ⟨[], 500⟩

/-- One fsnotify event: path, Create/Write bits, and whether the path is
a directory at event time. -/
structure FsEvent where
  name : String
  isCreate : Bool
  isWrite : Bool
  isDir : Bool
deriving Repr, DecidableEq

/-- One iteration of `processEvents` on an event: a created directory is
registered and skipped; non-`.jsonl` paths are ignored; a write or
create on a `.jsonl` path records the event time in the pending table. -/
def handleEvent (s : WatcherState) (e : FsEvent) (now : Nat) : WatcherState :=
  if e.isCreate ∧ e.isDir then s
  else if ¬ (strEndsWith e.name ".jsonl") then s
  else if e.isWrite ∨ e.isCreate then
    { s with pendingFiles := setAssoc s.pendingFiles e.name now }
  else s

/-- One tick of `processPendingFiles`: every pending path whose last
event is at least `debounceMs` old is removed from the table and
dispatched (second component); the rest stay untouched. -/
def scanPending (s : WatcherState) (now : Nat) : WatcherState × List String :=
  let expired := s.pendingFiles.filter (fun pr => s.debounceMs ≤ now - pr.2)
  let remaining := s.pendingFiles.filter (fun pr => ¬ (s.debounceMs ≤ now - pr.2))
  ({ s with pendingFiles := remaining }, expired.map Prod.fst)

/-! ## Startup (`GetClaudeProjectsDir`, `addRecursive`, `main.go` start)

The filesystem and fsnotify are external inputs: the home-directory
lookup result, the outcome of `os.Stat` on the projects directory
(`os.IsNotExist` is tested, so other stat errors are distinct), the
result of `fsnotify.NewWatcher`, the entries visited by `filepath.Walk`
(path, whether the walk reports an error there, whether it is a
directory), and the per-path success of `watcher.Add`.
-/

inductive StatOutcome where
  | okStat : StatOutcome
  | notExist : StatOutcome
  | otherError : StatOutcome
deriving Repr, DecidableEq

structure StartupEnv where
  homeDir : Option String
  projectsDirStat : StatOutcome
  newWatcherOk : Bool
  walkEntries : List (String × Bool × Bool)
  addOk : String → Bool

/-- `monitor.GetClaudeProjectsDir`: fails when the home directory cannot
be determined or when `os.Stat` fails with a not-exist error; any other
stat outcome (including a permission error on an unopenable path)
returns the directory without error. -/
def getClaudeProjectsDir (env : StartupEnv) : Except String String :=
  match env.homeDir with
  | none => .error "failed to get home directory"
  | some home =>
    if env.projectsDirStat = .notExist then
      .error "Claude projects directory not found"
    else .ok (home ++ "/.claude/projects")

/-- The walk of `addRecursive`: the walk function returns `nil` on an
error at a path (skip) and ignores the error of `watcher.Add`, so the
walk never aborts; the accumulator collects the directories actually
registered. -/
def addRecursiveGo (env : StartupEnv) :
    List (String × Bool × Bool) → List String → Except String (List String)
  | [], acc => .ok acc.reverse
  | (path, errHere, isDir) :: rest, acc =>
    if errHere then addRecursiveGo env rest acc
    else if isDir then
      if env.addOk path then addRecursiveGo env rest (path :: acc)
      else addRecursiveGo env rest acc
    else addRecursiveGo env rest acc

/-- `Watcher.addRecursive` (the only fallible part of `Watcher.Start`). -/
def addRecursive (env : StartupEnv) : Except String (List String) :=
  addRecursiveGo env env.walkEntries []

/-- The startup sequence of the `start` command in `main.go` restricted
to the watcher path: resolve the projects directory, create the fsnotify
watcher, and run `Watcher.Start`; each error is propagated and leads to
a non-zero process exit. -/
def startSequence (env : StartupEnv) : Except String (List String) :=
  match getClaudeProjectsDir env with
  | .error e => .error e
  | .ok _ =>
    if env.newWatcherOk then addRecursive env
    else .error "failed to create watcher"

/-! ## Spec-side description for content extraction

For the functional-correctness comparison, the per-block contribution as
the specification words it, to be proved equal to the source's
`blockPart`.
-/

/-- Per-block contribution as described by the specification: text
blocks contribute their non-empty text field; `tool_use` blocks the
section `"[Tool: " + name + "]"` followed by a newline and the
pretty-printed input; `tool_result` blocks their non-empty content
field; any other type its text field if present. -/
def specBlockContribution (b : ContentBlock) : List String :=
  if b.type = "text" then (if b.text ≠ "" then [b.text] else [])
  else if b.type = "tool_use" then
    ["[Tool: " ++ b.name ++ "]\n" ++
      (match b.input with
       | some v => indentJson 0 v
       | none => "")]
  else if b.type = "tool_result" then (if b.content ≠ "" then [b.content] else [])
  else (if b.text ≠ "" then [b.text] else [])

/-! ## Concrete fixtures used by witnesses and counterexamples -/

def cfg0 : Config :=
  ⟨"https://host", "pk", "sk", "user-message", "assistant-response",
   "uid", "default-model", "claude-code"⟩

/-- A dry-run monitor as built by the repository's tests. -/
def monDry : Monitor := ⟨⟨24, false, true, true⟩, cfg0, none, [], [], 0, 0⟩

/-- A live monitor with a fresh client. -/
def monLive : Monitor :=
  ⟨⟨24, false, false, true⟩, cfg0, some (newClient "https://host" "pk" "sk"),
   [], [], 0, 0⟩

def entryUser : Entry :=
  ⟨"user", "test-uuid-123", "", "2024-01-01T00:00:00Z",
   some (.str "Test message"), "", "", ""⟩

def entrySystem : Entry :=
  ⟨"system", "system-uuid", "", "2024-01-01T00:00:00Z",
   some (.str "System message"), "", "", ""⟩

def trEx : Trace := ⟨"t1", "user-message", "s1", "uid", [], "hello", .wallClock⟩

def genEx : Generation :=
  ⟨"g1", "t1", "assistant-response", "default-model", [], "out", .wallClock, .wallClock⟩

/-- A 2 MiB line, exceeding the scanner's 1 MiB token limit. -/
def bigLine : String := String.mk (List.replicate 2097152 'a')

def validUserLine : String :=
  "\x7b\"type\":\"user\",\"uuid\":\"valid-msg\",\"message\":\"Hello\",\"timestamp\":\"2024-01-01T00:00:00Z\"\x7d"

def testFilePath : String := "/tmp/x/projects/test-project/conv-123.jsonl"

/-- A client one event short of the flush threshold. -/
def cNine : Client :=
  ⟨"https://host", "pk", "sk", List.replicate 9 (traceEvent trEx), 10⟩

/-- The test's text-block payload. -/
def mcHello : MessageContent := ⟨"", [⟨"text", "Hello, world!", "", none, "", ""⟩], ""⟩

/-- The test's tool-use payload block. -/
def toolBlock : ContentBlock :=
  ⟨"tool_use", "", "Read", some (.obj [("file_path", .str "/test.js")]), "", ""⟩

/-- A pending table with one stale and one fresh entry. -/
def wsEx : WatcherState := ⟨[("a.jsonl", 100), ("b.jsonl", 900)], 500⟩

/-- A startup environment whose projects root exists but cannot be
opened: `os.Stat` fails with a non-not-exist (permission) error. -/
def envUnopenable : StartupEnv :=
  ⟨some "/home/u", .otherError, true, [], fun _ => false⟩

/-- The example conversation path of the specification. -/
def examplePath : String :=
  "/home/u/.claude/projects/Users-test-Documents-github-myproject/conv-abc-123.jsonl"

/-! ## Shared helper lemmas -/

theorem bytesLen_replicate (n : Nat) : bytesLen (List.replicate n 'a') = n := by
  induction n with
  | zero => rfl
  | succ k ih =>
    simp only [List.replicate, bytesLen, ih]
    have h : 'a'.utf8Size = 1 := by decide
    omega

/-- `ProcessMessage` never touches the session cache. -/
theorem processMessage_sessions (m : Monitor) (resp : HttpOutcome) (e : Entry)
    (sid pp cid : String) :
    (processMessage m resp e sid pp cid).1.conversationSessions =
      m.conversationSessions := by
  unfold processMessage
  repeat' split
  all_goals (dsimp only; repeat' split)
  all_goals rfl

/-- The line loop never touches the session cache. -/
theorem processLines_sessions (resp : HttpOutcome) (sid pp cid : String)
    (lines : List String) : ∀ m : Monitor,
    (processLines m resp sid pp cid lines).1.conversationSessions =
      m.conversationSessions := by
  induction lines with
  | nil => intro m; rfl
  | cons l rest ih =>
    intro m
    unfold processLines
    split
    · rfl
    · split
      · exact ih m
      · split
        · exact ih m
        · simp only []
          rw [ih, processMessage_sessions]

/-- The pending table has distinct keys (a `map` in the source). -/
def keysNodup (l : List (String × Nat)) : Prop := (l.map Prod.fst).Nodup


theorem lookup_cons_self {β : Type} (k : String) (v : β) (l : List (String × β)) :
    List.lookup k ((k, v) :: l) = some v := by
  simp [List.lookup]

theorem lookup_cons_ne {β : Type} (k q : String) (v : β) (l : List (String × β))
    (h : q ≠ k) : List.lookup q ((k, v) :: l) = List.lookup q l := by
  have hb : (q == k) = false := beq_eq_false_iff_ne.mpr h
  simp [List.lookup, hb]

theorem lookup_mem {β : Type} (q : String) (w : β) :
    ∀ l : List (String × β), List.lookup q l = some w → (q, w) ∈ l := by
  intro l
  induction l with
  | nil => intro h; simp [List.lookup] at h
  | cons kv rest ih =>
    obtain ⟨k, v⟩ := kv
    intro h
    by_cases hqk : q = k
    · subst hqk
      rw [lookup_cons_self] at h
      cases h
      exact List.mem_cons_self _ _
    · rw [lookup_cons_ne k q v rest hqk] at h
      exact List.mem_cons_of_mem _ (ih h)

theorem lookup_filter (g : String × Nat → Bool) (p : String) (t : Nat) :
    ∀ l : List (String × Nat), keysNodup l → List.lookup p l = some t →
    List.lookup p (l.filter g) = if g (p, t) then some t else none := by
  intro l
  induction l with
  | nil => intro _ h; simp [List.lookup] at h
  | cons kv rest ih =>
    intro hnd hl
    obtain ⟨k, v⟩ := kv
    have hnd2 : keysNodup rest := by
      simpa [keysNodup] using (List.nodup_cons.mp hnd).2
    have hknot : k ∉ rest.map Prod.fst := (List.nodup_cons.mp hnd).1
    by_cases hpk : p = k
    · subst hpk
      rw [lookup_cons_self] at hl
      cases hl
      have hrest : List.lookup p (rest.filter g) = none := by
        cases hr : List.lookup p (rest.filter g) with
        | none => rfl
        | some w =>
          exact absurd
            (List.mem_map.mpr ⟨(p, w), List.mem_of_mem_filter (lookup_mem p w _ hr), rfl⟩)
            hknot
      by_cases hg : g (p, t) = true
      · simp [List.filter, hg, lookup_cons_self]
      · have hg2 : g (p, t) = false := by simpa using hg
        simp [List.filter, hg2, hrest, hg]
    · rw [lookup_cons_ne k p v rest hpk] at hl
      have := ih hnd2 hl
      by_cases hg : g (k, v) = true
      · rw [List.filter_cons_of_pos hg, lookup_cons_ne k p v _ hpk]
        exact this
      · have hg2 : g (k, v) = false := by simpa using hg
        rw [List.filter_cons_of_neg (by simp [hg2])]
        exact this

theorem mem_map_fst_filter_iff (g : String × Nat → Bool) (p : String) :
    ∀ l : List (String × Nat), keysNodup l →
    (p ∈ (l.filter g).map Prod.fst ↔
      ∃ t, List.lookup p l = some t ∧ g (p, t) = true) := by
  intro l
  induction l with
  | nil => intro _; simp [List.lookup]
  | cons kv rest ih =>
    intro hnd
    obtain ⟨k, v⟩ := kv
    have hnd2 : keysNodup rest := by
      simpa [keysNodup] using (List.nodup_cons.mp hnd).2
    have hknot : k ∉ rest.map Prod.fst := (List.nodup_cons.mp hnd).1
    by_cases hpk : p = k
    · subst hpk
      have hnotrest : p ∉ (rest.filter g).map Prod.fst := by
        intro hmem
        obtain ⟨q, hab, hfst⟩ := List.mem_map.mp hmem
        exact hknot (List.mem_map.mpr ⟨q, List.mem_of_mem_filter hab, hfst⟩)
      by_cases hg : g (p, v) = true
      · simp [List.filter_cons_of_pos hg, lookup_cons_self, hg]
      · have hg2 : g (p, v) = false := by simpa using hg
        rw [List.filter_cons_of_neg (by simp [hg2])]
        simp [lookup_cons_self, hnotrest, hg2]
    · have hstep := ih hnd2
      by_cases hg : g (k, v) = true
      · rw [List.filter_cons_of_pos hg]
        simp only [List.map_cons, List.mem_cons, lookup_cons_ne k p v rest hpk]
        constructor
        · intro hc
          rcases hc with hc | hc
          · exact absurd hc hpk
          · exact hstep.mp hc
        · intro hc
          exact Or.inr (hstep.mpr hc)
      · have hg2 : g (k, v) = false := by simpa using hg
        rw [List.filter_cons_of_neg (by simp [hg2]), lookup_cons_ne k p v rest hpk]
        exact hstep

theorem keysNodup_filter (g : String × Nat → Bool) (l : List (String × Nat))
    (hnd : keysNodup l) : keysNodup (l.filter g) := by
  unfold keysNodup at *
  exact List.Nodup.sublist (List.Sublist.map Prod.fst (List.filter_sublist l)) hnd

theorem setAssoc_lookup_self (k : String) (v : Nat) :
    ∀ l : List (String × Nat), List.lookup k (setAssoc l k v) = some v := by
  intro l
  induction l with
  | nil => simp [setAssoc, List.lookup]
  | cons kv rest ih =>
    obtain ⟨k2, v2⟩ := kv
    by_cases h : k2 = k
    · subst h
      simp [setAssoc, lookup_cons_self]
    · rw [setAssoc]
      rw [if_neg h, lookup_cons_ne k2 k v2 _ (fun hc => h hc.symm)]
      exact ih

theorem setAssoc_lookup_other (k : String) (v : Nat) (q : String) (hq : q ≠ k) :
    ∀ l : List (String × Nat), List.lookup q (setAssoc l k v) = List.lookup q l := by
  intro l
  induction l with
  | nil => simp [setAssoc, lookup_cons_ne k q v [] hq]
  | cons kv rest ih =>
    obtain ⟨k2, v2⟩ := kv
    by_cases h : k2 = k
    · subst h
      rw [setAssoc, if_pos rfl, lookup_cons_ne _ q _ _ hq, lookup_cons_ne _ q _ _ hq]
    · rw [setAssoc, if_neg h]
      by_cases h2 : q = k2
      · subst h2
        rw [lookup_cons_self, lookup_cons_self]
      · rw [lookup_cons_ne _ q _ _ h2, lookup_cons_ne _ q _ _ h2]
        exact ih

/-! ## Claim theorems -/

/-- C2: for the batching delivery client, a flush on an empty buffer is
a no-op returning success; if the POST fails in transport or returns a
status ≥ 400 the flush returns an error and the buffer is left exactly
as it was (same events, same order, same length); if the POST returns a
status < 400 the entire buffer is cleared atomically. -/
theorem c2_flush_contract (c : Client) (code : Nat) (hne : c.events ≠ []) :
    (∀ c2 : Client, ∀ r : HttpOutcome, c2.events = [] →
        flushLocked c2 r = (c2, Except.ok ())) ∧
    flushLocked c .transportError = (c, Except.error "failed to send request") ∧
    (400 ≤ code →
      flushLocked c (.status code) =
        (c, Except.error ("langfuse API error: status " ++ toString code))) ∧
    (code < 400 →
      flushLocked c (.status code) = ({ c with events := [] }, Except.ok ())) := by
  refine ⟨?_, ?_, ?_, ?_⟩
  · intro c2 r h2
    simp [flushLocked, h2]
  · simp [flushLocked, hne]
  · intro h
    simp [flushLocked, hne, h]
  · intro h
    simp [flushLocked, hne, Nat.not_le.mpr h]

/-- Witness for C2 at a one-event buffer: transport failure and status
500 keep the buffer and return errors, status 207 clears it. -/
theorem c2_flush_contract_witness :
    flushLocked ⟨"https://host", "pk", "sk", [traceEvent trEx], 10⟩ .transportError
      = (⟨"https://host", "pk", "sk", [traceEvent trEx], 10⟩,
         Except.error "failed to send request") ∧
    flushLocked ⟨"https://host", "pk", "sk", [traceEvent trEx], 10⟩ (.status 500)
      = (⟨"https://host", "pk", "sk", [traceEvent trEx], 10⟩,
         Except.error ("langfuse API error: status " ++ toString 500)) ∧
    flushLocked ⟨"https://host", "pk", "sk", [traceEvent trEx], 10⟩ (.status 207)
      = (⟨"https://host", "pk", "sk", [], 10⟩, Except.ok ()) := by
  have h5 := c2_flush_contract ⟨"https://host", "pk", "sk", [traceEvent trEx], 10⟩ 500
    (by decide)
  have h2 := c2_flush_contract ⟨"https://host", "pk", "sk", [traceEvent trEx], 10⟩ 207
    (by decide)
  exact ⟨h5.2.1, h5.2.2.1 (by decide), h2.2.2.2 (by decide)⟩

/-- C6: every event enqueued via `CreateTrace` or `CreateGeneration` is
appended to the buffer; if the length after the append reaches the
threshold 10 a flush runs before the call returns; below the threshold
no flush is attempted and the buffer is left non-empty. -/
theorem c6_enqueue_threshold (c : Client) (t : Trace) (g : Generation)
    (resp : HttpOutcome) (hb : c.batchSize = 10) :
    (c.events.length + 1 < 10 →
      createTrace c t resp =
        ({ c with events := c.events ++ [traceEvent t] }, Except.ok (), false) ∧
      createGeneration c g resp =
        ({ c with events := c.events ++ [genEvent g] }, Except.ok (), false) ∧
      c.events ++ [traceEvent t] ≠ [] ∧ c.events ++ [genEvent g] ≠ []) ∧
    (10 ≤ c.events.length + 1 →
      createTrace c t resp =
        ((flushLocked { c with events := c.events ++ [traceEvent t] } resp).1,
         (flushLocked { c with events := c.events ++ [traceEvent t] } resp).2, true) ∧
      createGeneration c g resp =
        ((flushLocked { c with events := c.events ++ [genEvent g] } resp).1,
         (flushLocked { c with events := c.events ++ [genEvent g] } resp).2, true)) := by
  constructor
  · intro hlt
    have hc1 : ¬ (c.events ++ [traceEvent t]).length ≥ c.batchSize := by
      simp [hb]
      omega
    have hc2 : ¬ (c.events ++ [genEvent g]).length ≥ c.batchSize := by
      simp [hb]
      omega
    refine ⟨?_, ?_, by simp, by simp⟩
    · unfold createTrace
      rw [if_neg hc1]
    · unfold createGeneration
      rw [if_neg hc2]
  · intro hge
    have hc1 : (c.events ++ [traceEvent t]).length ≥ c.batchSize := by
      simp [hb]
      omega
    have hc2 : (c.events ++ [genEvent g]).length ≥ c.batchSize := by
      simp [hb]
      omega
    constructor
    · unfold createTrace
      rw [if_pos hc1]
    · unfold createGeneration
      rw [if_pos hc2]

/-- Witness for C6: an empty client only appends (no flush attempt); a
client at nine events flushes on the tenth append, clearing the buffer
on a 200 response. -/
theorem c6_enqueue_threshold_witness :
    createTrace (newClient "https://host" "pk" "sk") trEx (.status 200)
      = (⟨"https://host", "pk", "sk", [traceEvent trEx], 10⟩, Except.ok (), false) ∧
    createTrace cNine trEx (.status 200)
      = ((flushLocked ⟨"https://host", "pk", "sk",
            List.replicate 9 (traceEvent trEx) ++ [traceEvent trEx], 10⟩ (.status 200)).1,
         (flushLocked ⟨"https://host", "pk", "sk",
            List.replicate 9 (traceEvent trEx) ++ [traceEvent trEx], 10⟩ (.status 200)).2,
         true) := by
  have h1 := (c6_enqueue_threshold (newClient "https://host" "pk" "sk") trEx genEx
    (.status 200) rfl).1 (by decide)
  have h2 := (c6_enqueue_threshold cNine trEx genEx (.status 200) rfl).2 (by decide)
  exact ⟨h1.1, h2.1⟩

/-- C3: for every entry whose kind is not `user`/`assistant`, and for
every entry with an empty id, `ProcessMessage` is a no-op regardless of
the other fields: no ledger mutation, no event emitted, no counter
change. -/
theorem c3_nonqualifying_noop (m : Monitor) (resp : HttpOutcome) (e : Entry)
    (sid pp cid : String)
    (h : ¬(e.type = "user" ∨ e.type = "assistant") ∨ e.uuid = "") :
    processMessage m resp e sid pp cid = (m, []) := by
  rcases h with h | h
  · unfold processMessage
    rw [if_pos h]
  · unfold processMessage
    by_cases hk : e.type = "user" ∨ e.type = "assistant"
    · rw [if_neg (not_not_intro hk), if_pos h]
    · rw [if_pos hk]

/-- Witness for C3: a `system` entry and a user entry without id are both
complete no-ops on the test monitor. -/
theorem c3_nonqualifying_noop_witness :
    processMessage monDry (.status 200) entrySystem "session-1" "/test/project" "conv-1"
      = (monDry, []) ∧
    processMessage monDry (.status 200)
      ⟨"user", "", "", "2024-01-01T00:00:00Z", some (.str "Test message"), "", "", ""⟩
      "session-1" "/test/project" "conv-1" = (monDry, []) := by
  refine ⟨?_, ?_⟩
  · exact c3_nonqualifying_noop monDry (.status 200) entrySystem "session-1"
      "/test/project" "conv-1" (Or.inl (by decide))
  · exact c3_nonqualifying_noop monDry (.status 200)
      ⟨"user", "", "", "2024-01-01T00:00:00Z", some (.str "Test message"), "", "", ""⟩
      "session-1" "/test/project" "conv-1" (Or.inr rfl)

/-- C1: for an entry with kind `user`/`assistant` and non-empty fresh
id, processing it twice in live mode yields exactly one ledger
insertion and exactly one emitted outbound event, and the second call is
fully a no-op: the returned state (ledger, counters, client buffer) is
exactly the state after the first call and nothing is emitted. -/
theorem c1_idempotent (m : Monitor) (c : Client) (resp : HttpOutcome) (e : Entry)
    (sid pp cid : String)
    (hk : e.type = "user" ∨ e.type = "assistant") (hid : e.uuid ≠ "")
    (hfresh : e.uuid ∉ m.processedMessages)
    (hdr : m.options.dryRun = false) (hc : m.client = some c) :
    (processMessage m resp e sid pp cid).2.length = 1 ∧
    (processMessage m resp e sid pp cid).1.processedMessages
        = e.uuid :: m.processedMessages ∧
    processMessage (processMessage m resp e sid pp cid).1 resp e sid pp cid
        = ((processMessage m resp e sid pp cid).1, []) := by
  have hkk : ¬¬(e.type = "user" ∨ e.type = "assistant") := not_not_intro hk
  rcases hk with hu | ha
  · refine ⟨?_, ?_, ?_⟩ <;>
      simp [processMessage, hkk, hid, hfresh, hdr, hc, hu, List.mem_cons]
  · by_cases hu : e.type = "user"
    · refine ⟨?_, ?_, ?_⟩ <;>
        simp [processMessage, hkk, hid, hfresh, hdr, hc, hu, List.mem_cons]
    · refine ⟨?_, ?_, ?_⟩ <;>
        simp [processMessage, hkk, hid, hfresh, hdr, hc, ha, hu, List.mem_cons]

/-- Witness for C1 at the test entry on a live monitor. -/
theorem c1_idempotent_witness :
    (processMessage monLive (.status 200) entryUser "session-1" "/test/project"
        "conv-1").2.length = 1 ∧
    (processMessage monLive (.status 200) entryUser "session-1" "/test/project"
        "conv-1").1.processedMessages = ["test-uuid-123"] ∧
    processMessage (processMessage monLive (.status 200) entryUser "session-1"
        "/test/project" "conv-1").1 (.status 200) entryUser "session-1"
        "/test/project" "conv-1"
      = ((processMessage monLive (.status 200) entryUser "session-1" "/test/project"
          "conv-1").1, []) := by
  have h := c1_idempotent monLive (newClient "https://host" "pk" "sk") (.status 200)
    entryUser "session-1" "/test/project" "conv-1" (Or.inl rfl) (by decide) (by decide)
    rfl rfl
  exact ⟨h.1, h.2.1, h.2.2⟩

/-- C10: the processed ledger is monotone (no call ever removes an id)
and insertion precedes delivery: a fresh qualifying entry is marked
processed and counted whatever the delivery layer does (dry-run, absent
client, or a failing flush response), dry-run/no-client calls emit
nothing, and any invocation whose entry id is already in the ledger is a
complete no-op, so a processed id is never re-emitted. -/
theorem c10_ledger_monotone_precedes_delivery :
    (∀ (m : Monitor) (resp : HttpOutcome) (e : Entry) (sid pp cid : String),
       ∃ pre, (processMessage m resp e sid pp cid).1.processedMessages
         = pre ++ m.processedMessages) ∧
    (∀ (m : Monitor) (resp : HttpOutcome) (e : Entry) (sid pp cid : String),
       (e.type = "user" ∨ e.type = "assistant") → e.uuid ≠ "" →
       e.uuid ∉ m.processedMessages →
       e.uuid ∈ (processMessage m resp e sid pp cid).1.processedMessages ∧
       (processMessage m resp e sid pp cid).1.messageCountUser +
         (processMessage m resp e sid pp cid).1.messageCountAssistant
         = m.messageCountUser + m.messageCountAssistant + 1 ∧
       ((m.options.dryRun = true ∨ m.client = none) →
          (processMessage m resp e sid pp cid).2 = [])) ∧
    (∀ (m : Monitor) (resp : HttpOutcome) (e : Entry) (sid pp cid : String),
       e.uuid ∈ m.processedMessages →
       processMessage m resp e sid pp cid = (m, [])) := by
  refine ⟨?_, ?_, ?_⟩
  · intro m resp e sid pp cid
    unfold processMessage
    repeat' split
    all_goals (dsimp only; repeat' split)
    all_goals first
      | exact ⟨[], rfl⟩
      | exact ⟨[e.uuid], rfl⟩
  · intro m resp e sid pp cid hk hid hfresh
    have hkk : ¬¬(e.type = "user" ∨ e.type = "assistant") := not_not_intro hk
    refine ⟨?_, ?_, ?_⟩
    · unfold processMessage
      rw [if_neg hkk, if_neg hid, if_neg hfresh]
      dsimp only
      repeat' split
      all_goals simp
    · unfold processMessage
      rw [if_neg hkk, if_neg hid, if_neg hfresh]
      dsimp only
      repeat' split
      all_goals (dsimp only; omega)
    · intro hdc
      unfold processMessage
      rw [if_neg hkk, if_neg hid, if_neg hfresh]
      dsimp only
      repeat' split
      all_goals first
        | rfl
        | (exfalso; rcases hdc with h | h <;> simp_all)
  · intro m resp e sid pp cid hin
    unfold processMessage
    by_cases hk : ¬(e.type = "user" ∨ e.type = "assistant")
    · rw [if_pos hk]
    · rw [if_neg hk]
      by_cases hid : e.uuid = ""
      · rw [if_pos hid]
      · rw [if_neg hid, if_pos hin]

/-- Witness for C10: the dry-run test monitor marks and counts the test
entry while emitting nothing, and the call with the id already present
is a complete no-op. -/
theorem c10_ledger_monotone_precedes_delivery_witness :
    ("test-uuid-123" ∈ (processMessage monDry (.status 200) entryUser "session-1"
        "/test/project" "conv-1").1.processedMessages ∧
     (processMessage monDry (.status 200) entryUser "session-1" "/test/project"
        "conv-1").2 = []) ∧
    processMessage { monDry with processedMessages := ["test-uuid-123"] }
        (.status 200) entryUser "session-1" "/test/project" "conv-1"
      = ({ monDry with processedMessages := ["test-uuid-123"] }, []) := by
  have h2 := c10_ledger_monotone_precedes_delivery.2.1 monDry (.status 200) entryUser
    "session-1" "/test/project" "conv-1" (Or.inl rfl) (by decide) (by decide)
  have h3 := c10_ledger_monotone_precedes_delivery.2.2
    { monDry with processedMessages := ["test-uuid-123"] } (.status 200) entryUser
    "session-1" "/test/project" "conv-1" (by decide)
  exact ⟨⟨h2.1, h2.2.2 (Or.inl rfl)⟩, h3⟩

/-- The source's `switch` body agrees with the specification's per-block
description. -/
theorem blockPart_eq_spec (b : ContentBlock) : blockPart b = specBlockContribution b := by
  by_cases h1 : b.type = "text"
  · simp [blockPart, specBlockContribution, h1]
  · by_cases h2 : b.type = "tool_use"
    · simp [blockPart, specBlockContribution, h1, h2]
    · by_cases h3 : b.type = "tool_result"
      · simp [blockPart, specBlockContribution, h1, h2, h3]
      · simp [blockPart, specBlockContribution, h1, h2, h3]

theorem collectParts_eq_flatMap (bs : List ContentBlock) :
    collectParts bs = bs.flatMap specBlockContribution := by
  induction bs with
  | nil => rfl
  | cons b rest ih => simp [collectParts, ih, blockPart_eq_spec]

/-- C4: content extraction is total: a bare JSON string is returned
verbatim; with a non-empty content array each block contributes as the
specification describes and the parts are joined with a blank line; when
no part is produced, or the content array is absent, the flat text field
is the result (so an all-empty payload gives the empty string); a
payload that fails to unmarshal yields the empty string, never an
error. -/
theorem c4_extract_content_spec :
    (∀ s, extractContent (some (.str s)) = s) ∧
    extractContent none = "" ∧
    (∀ j : JsonVal, (∀ s, j ≠ .str s) → unmarshalMessageContent j = none →
        extractContent (some j) = "") ∧
    (∀ (j : JsonVal) (mc : MessageContent), unmarshalMessageContent j = some mc →
        extractContent (some j) = extractFromContent mc) ∧
    (∀ mc : MessageContent, mc.content ≠ [] →
        mc.content.flatMap specBlockContribution ≠ [] →
        extractFromContent mc =
          String.intercalate "\n\n" (mc.content.flatMap specBlockContribution)) ∧
    (∀ mc : MessageContent,
        mc.content = [] ∨ mc.content.flatMap specBlockContribution = [] →
        extractFromContent mc = mc.text) := by
  refine ⟨fun s => rfl, rfl, ?_, ?_, ?_, ?_⟩
  · intro j hs hn
    cases j with
    | null => simp [unmarshalMessageContent] at hn
    | str s => exact absurd rfl (hs s)
    | bool b => simp [extractContent, hn]
    | num r => simp [extractContent, hn]
    | arr xs => simp [extractContent, hn]
    | obj fields => simp [extractContent, hn]
  · intro j mc hmc
    cases j with
    | null =>
      have : mc = ⟨"", [], ""⟩ := by
        simpa [unmarshalMessageContent] using hmc.symm
      subst this
      rfl
    | str s => simp [unmarshalMessageContent] at hmc
    | bool b => simp [unmarshalMessageContent] at hmc
    | num r => simp [unmarshalMessageContent] at hmc
    | arr xs => simp [unmarshalMessageContent] at hmc
    | obj fields => simp [extractContent, hmc]
  · intro mc h1 h2
    unfold extractFromContent
    rw [if_pos (List.length_pos.mpr h1)]
    dsimp only
    rw [collectParts_eq_flatMap]
    rw [if_pos (List.length_pos.mpr h2)]
  · intro mc h
    rcases h with h | h
    · by_cases ht : mc.text = "" <;> simp [extractFromContent, h, ht]
    · by_cases hc : mc.content = []
      · by_cases ht : mc.text = "" <;> simp [extractFromContent, hc, ht]
      · unfold extractFromContent
        rw [if_pos (List.length_pos.mpr hc)]
        dsimp only
        rw [collectParts_eq_flatMap, h]
        by_cases ht : mc.text = "" <;> simp [ht]

/-- Witness for C4 at the repository's test payloads: text block, tool
use block, bare string, flat-text fallback. -/
theorem c4_extract_content_spec_witness :
    extractContent (some (.str "Simple string message")) = "Simple string message" ∧
    extractFromContent mcHello = "Hello, world!" ∧
    extractFromContent ⟨"", [toolBlock], ""⟩ =
      "[Tool: Read]\n\x7b\n  \"file_path\": \"/test.js\"\n\x7d" ∧
    extractFromContent ⟨"Fallback text", [], ""⟩ = "Fallback text" := by
  refine ⟨c4_extract_content_spec.1 "Simple string message", ?_, ?_, ?_⟩
  · have h := c4_extract_content_spec.2.2.2.2.1 mcHello
      (by simp [mcHello]) (by decide)
    rw [h]
    decide
  · have h := c4_extract_content_spec.2.2.2.2.1 ⟨"", [toolBlock], ""⟩
      (by simp) (by decide)
    rw [h]
    decide
  · exact c4_extract_content_spec.2.2.2.2.2 ⟨"Fallback text", [], ""⟩ (Or.inl rfl)

/-- C5: for every accepted path the project path is the decoded segment
after the `projects` anchor (every `-` replaced by `/`), the
conversation id is the final segment with `.jsonl` stripped, and the
session id is a pure function of `(projectPath, conversationId)` alone:
identical pairs give identical ids and the stored session id never
depends on the file's contents. -/
theorem c5_identity_derivation :
    (∀ fp pp cid, deriveIdentity fp = some (pp, cid) →
       ∃ i, (splitPath fp).findIdx? (fun p => p == "projects") = some i ∧
            i + 2 < (splitPath fp).length ∧
            pp = decodeProjectPath ((splitPath fp).getD (i + 1) "") ∧
            cid = trimSuffixStr ((splitPath fp).getLastD "") ".jsonl") ∧
    decodeProjectPath "Users-test-Documents-github-myproject"
      = "Users/test/Documents/github/myproject" ∧
    decodeProjectPath "simple" = "simple" ∧
    (∀ pp cid pp2 cid2, pp = pp2 → cid = cid2 →
       sessionIdOf pp cid = sessionIdOf pp2 cid2) ∧
    (∀ (m : Monitor) (resp : HttpOutcome) (fp : String)
       (file file2 : Option (List String)),
       List.lookup fp (processConversationFile m resp fp file).1.conversationSessions =
       List.lookup fp (processConversationFile m resp fp file2).1.conversationSessions) ∧
    (∀ (m : Monitor) (resp : HttpOutcome) (fp pp cid : String)
       (file : Option (List String)),
       deriveIdentity fp = some (pp, cid) →
       List.lookup fp m.conversationSessions = none →
       List.lookup fp (processConversationFile m resp fp file).1.conversationSessions
         = some (sessionIdOf pp cid)) := by
  refine ⟨?_, by decide, by decide, ?_, ?_, ?_⟩
  · intro fp pp cid hd
    unfold deriveIdentity at hd
    dsimp only at hd
    cases hf : (splitPath fp).findIdx? (fun p => p == "projects") with
    | none =>
      rw [hf] at hd
      exact absurd hd (by simp)
    | some i =>
      rw [hf] at hd
      dsimp only at hd
      by_cases hlen : i + 2 ≥ (splitPath fp).length
      · rw [if_pos hlen] at hd
        exact absurd hd (by simp)
      · rw [if_neg hlen] at hd
        have h2 := Option.some.inj hd
        refine ⟨i, rfl, by omega, ?_, ?_⟩
        · exact (congrArg Prod.fst h2).symm
        · exact (congrArg Prod.snd h2).symm
  · intro pp cid pp2 cid2 h1 h2
    rw [h1, h2]
  · intro m resp fp file file2
    unfold processConversationFile
    cases hd : deriveIdentity fp with
    | none => rfl
    | some pc =>
      obtain ⟨pp, cid⟩ := pc
      dsimp only
      cases hc : List.lookup fp m.conversationSessions with
      | some sid =>
        cases file <;> cases file2 <;>
          simp [processLines_sessions]
      | none =>
        cases file <;> cases file2 <;>
          simp [processLines_sessions]
  · intro m resp fp pp cid file hd hnone
    unfold processConversationFile
    rw [hd]
    dsimp only
    rw [hnone]
    dsimp only
    cases file with
    | none => exact lookup_cons_self fp _ _
    | some lines =>
      rw [processLines_sessions]
      exact lookup_cons_self fp _ _

/-- Witness for C5: the specification's example path decodes to the
expected project path and conversation id, and processing the file (even
unreadable) stores exactly the MD5 session id of that pair. -/
theorem c5_identity_derivation_witness :
    deriveIdentity examplePath
      = some ("Users/test/Documents/github/myproject", "conv-abc-123") ∧
    List.lookup examplePath
      (processConversationFile monDry (.status 200) examplePath
        none).1.conversationSessions
      = some "1cbebcc5ad9910b61feb92fccc4aab15" := by
  have h := c5_identity_derivation.2.2.2.2.2 monDry (.status 200) examplePath
    "Users/test/Documents/github/myproject" "conv-abc-123" none (by decide) (by decide)
  refine ⟨by decide, ?_⟩
  rw [h]
  decide

theorem bigLine_bytes : lineBytesLen bigLine = 2097152 :=
  bytesLen_replicate 2097152

/-- A line over the scanner limit ends the read loop at once. -/
theorem processLines_abort (m : Monitor) (resp : HttpOutcome) (sid pp cid : String)
    (rest : List String) :
    processLines m resp sid pp cid (bigLine :: rest) = (m, []) := by
  unfold processLines
  rw [if_pos (by rw [bigLine_bytes]; decide)]

/-- C7 counterexample: a conversation file whose first line is 2 MiB of
garbage (it fails to parse as JSON) followed by a valid `user` entry
yields zero processed user messages — the oversized malformed line makes
`scanner.Scan` fail with `ErrTooLong`, aborting the remainder of the
file, where the claim requires exactly one user message to be counted. -/
theorem c7_counterexample :
    messageStats (processConversationFile monDry (.status 200) testFilePath
      (some [bigLine, validUserLine])).1 = (0, 0) := by
  unfold processConversationFile
  rw [show deriveIdentity testFilePath = some ("test/project", "conv-123") from by decide]
  dsimp only
  rw [show (List.lookup testFilePath monDry.conversationSessions : Option String)
        = none from rfl]
  dsimp only
  rw [processLines_abort]
  rfl

/-- C7 (amended): for lines within the scanner's 1 MiB limit, blank or
whitespace-only lines are skipped and a line that fails to parse as JSON
is skipped while reading continues with the remainder of the file (a
line exceeding the limit aborts the rest of the file); concretely, a
file with one short malformed line followed by one valid user entry
counts exactly one user message. -/
theorem c7_line_skipping :
    (∀ (m : Monitor) (resp : HttpOutcome) (sid pp cid line : String)
       (rest : List String),
       lineBytesLen line ≤ scannerMaxLine → isBlankLine line = true →
       processLines m resp sid pp cid (line :: rest)
         = processLines m resp sid pp cid rest) ∧
    (∀ (m : Monitor) (resp : HttpOutcome) (sid pp cid line : String)
       (rest : List String),
       lineBytesLen line ≤ scannerMaxLine → isBlankLine line = false →
       parseEntryLine line = none →
       processLines m resp sid pp cid (line :: rest)
         = processLines m resp sid pp cid rest) ∧
    messageStats (processConversationFile monDry (.status 200) testFilePath
      (some ["invalid json", validUserLine])).1 = (1, 0) := by
  refine ⟨?_, ?_, by decide⟩
  · intro m resp sid pp cid line rest hlen hblank
    conv_lhs => unfold processLines
    rw [if_neg (Nat.not_lt.mpr hlen), if_pos hblank]
  · intro m resp sid pp cid line rest hlen hblank hparse
    conv_lhs => unfold processLines
    rw [if_neg (Nat.not_lt.mpr hlen), if_neg (by simp [hblank]), hparse]

/-- Witness for C7's amended statement: a blank line and a short
malformed line are both skipped on the test monitor. -/
theorem c7_line_skipping_witness :
    processLines monDry (.status 200) "s" "p" "c" ["   ", validUserLine]
      = processLines monDry (.status 200) "s" "p" "c" [validUserLine] ∧
    processLines monDry (.status 200) "s" "p" "c" ["invalid json", validUserLine]
      = processLines monDry (.status 200) "s" "p" "c" [validUserLine] := by
  refine ⟨?_, ?_⟩
  · exact c7_line_skipping.1 monDry (.status 200) "s" "p" "c" "   " [validUserLine]
      (by decide) (by decide)
  · exact c7_line_skipping.2.1 monDry (.status 200) "s" "p" "c" "invalid json"
      [validUserLine] (by decide) (by decide) (by rfl)

/-- C8: at a tick, a pending path is dispatched exactly when its last
recorded event is at least the 500 ms window old; dispatched paths are
removed from the pending table (so no duplicate dispatch within a tick
nor at any later tick without new events); and a further event on a
qualifying path only resets its recorded last-event time, leaving every
other entry alone and dispatching nothing. -/
theorem c8_debounce_contract (s : WatcherState) (now now2 : Nat) (p : String)
    (hnd : keysNodup s.pendingFiles) (hw : s.debounceMs = 500) :
    (p ∈ (scanPending s now).2 ↔
       ∃ t, List.lookup p s.pendingFiles = some t ∧ 500 ≤ now - t) ∧
    (p ∈ (scanPending s now).2 →
       List.lookup p (scanPending s now).1.pendingFiles = none) ∧
    (scanPending s now).2.Nodup ∧
    (p ∈ (scanPending s now).2 → p ∉ (scanPending (scanPending s now).1 now2).2) ∧
    (∀ (e : FsEvent) (tnow : Nat), strEndsWith e.name ".jsonl" = true →
       ¬(e.isCreate = true ∧ e.isDir = true) →
       (e.isWrite = true ∨ e.isCreate = true) →
       (handleEvent s e tnow).pendingFiles = setAssoc s.pendingFiles e.name tnow) ∧
    (∀ (l : List (String × Nat)) (tnow : Nat),
       List.lookup p (setAssoc l p tnow) = some tnow) ∧
    (∀ (l : List (String × Nat)) (q : String) (tnow : Nat), p ≠ q →
       List.lookup p (setAssoc l q tnow) = List.lookup p l) := by
  have hmem : ∀ (st : WatcherState) (tk : Nat), keysNodup st.pendingFiles →
      st.debounceMs = 500 →
      ∀ q, (q ∈ (scanPending st tk).2 ↔
        ∃ t, List.lookup q st.pendingFiles = some t ∧ 500 ≤ tk - t) := by
    intro st tk hnd2 hw2 q
    have h := mem_map_fst_filter_iff
      (fun pr => decide (st.debounceMs ≤ tk - pr.2)) q st.pendingFiles hnd2
    simpa [scanPending, hw2, decide_eq_true_eq] using h
  have hrem : ∀ q, q ∈ (scanPending s now).2 →
      List.lookup q (scanPending s now).1.pendingFiles = none := by
    intro q hq
    obtain ⟨t, hl, ht⟩ := (hmem s now hnd hw q).mp hq
    have h2 := lookup_filter
      (fun pr => decide ¬(s.debounceMs ≤ now - pr.2)) q t s.pendingFiles hnd hl
    simpa [scanPending, hw, ht] using h2
  refine ⟨hmem s now hnd hw p, hrem p, ?_, ?_, ?_, ?_, ?_⟩
  · have h := keysNodup_filter
      (fun pr => decide (s.debounceMs ≤ now - pr.2)) s.pendingFiles hnd
    simpa [scanPending, keysNodup] using h
  · intro hp hp2
    have hnd2 : keysNodup (scanPending s now).1.pendingFiles := by
      have h := keysNodup_filter
        (fun pr => decide ¬(s.debounceMs ≤ now - pr.2)) s.pendingFiles hnd
      simpa [scanPending] using h
    have hw2 : (scanPending s now).1.debounceMs = 500 := hw
    obtain ⟨t2, hl2, _⟩ := (hmem (scanPending s now).1 now2 hnd2 hw2 p).mp hp2
    rw [hrem p hp] at hl2
    exact Option.noConfusion hl2
  · intro e tnow hsuf hnotdir hwc
    unfold handleEvent
    rw [if_neg hnotdir, if_neg (by simp [hsuf]), if_pos hwc]
  · intro l tnow
    exact setAssoc_lookup_self p tnow l
  · intro l q tnow hpq
    exact setAssoc_lookup_other q tnow p hpq l

/-- Witness for C8 on a two-entry pending table at tick time 1000: the
stale entry is dispatched and removed, the fresh one stays; a repeated
event on the stale path would only have reset its time. -/
theorem c8_debounce_contract_witness :
    ("a.jsonl" ∈ (scanPending wsEx 1000).2 ↔
       ∃ t, List.lookup "a.jsonl" wsEx.pendingFiles = some t ∧ 500 ≤ 1000 - t) ∧
    List.lookup "a.jsonl" (scanPending wsEx 1000).1.pendingFiles = none ∧
    "a.jsonl" ∉ (scanPending (scanPending wsEx 1000).1 1100).2 ∧
    List.lookup "a.jsonl" (setAssoc wsEx.pendingFiles "a.jsonl" 950) = some 950 := by
  have h := c8_debounce_contract wsEx 1000 1100 "a.jsonl"
    (by unfold keysNodup; decide) rfl
  exact ⟨h.1, h.2.1 (by decide), h.2.2.2.1 (by decide),
    h.2.2.2.2.2.1 wsEx.pendingFiles 950⟩

/-- C9 counterexample: the claimed equivalence fails in both directions.
A startup environment whose projects root exists but cannot be opened —
`os.Stat` fails with a permission error rather than a not-exist error,
so `os.IsNotExist(err)` is false — makes the start sequence succeed
(watching nothing), while the claim requires a fatal failure whenever
the root cannot be opened; and an environment with a perfectly healthy
root but a failing `fsnotify.NewWatcher` fails fatally, while the claim
allows failure only for a missing or unopenable root. -/
theorem c9_counterexample :
    envUnopenable.projectsDirStat = .otherError ∧
    startSequence envUnopenable = .ok [] ∧
    startSequence ⟨some "/home/u", .okStat, false, [], fun _ => true⟩
      = .error "failed to create watcher" :=
  ⟨rfl, rfl, rfl⟩

/-- C9 (amended): startup fails fatally iff the home directory cannot be
resolved, the projects root does not exist, or watch-handle creation
fails; a root that exists but cannot be opened is not detected, and the
recursive registration never fails — every walk or `Add` error,
including on the root itself, is swallowed. -/
theorem c9_startup_failure_conditions :
    (∀ env : StartupEnv, ∃ l, addRecursive env = .ok l) ∧
    (∀ env : StartupEnv,
       (∃ e, startSequence env = .error e) ↔
       (env.homeDir = none ∨ env.projectsDirStat = .notExist ∨
        env.newWatcherOk = false)) := by
  have hgo : ∀ (env : StartupEnv) (entries : List (String × Bool × Bool))
      (acc : List String), ∃ l, addRecursiveGo env entries acc = .ok l := by
    intro env entries
    induction entries with
    | nil => intro acc; exact ⟨acc.reverse, rfl⟩
    | cons kv rest ih =>
      intro acc
      obtain ⟨path, errHere, isDir⟩ := kv
      cases errHere with
      | true => simpa [addRecursiveGo] using ih acc
      | false =>
        cases isDir with
        | false => simpa [addRecursiveGo] using ih acc
        | true =>
          by_cases ha : env.addOk path = true
          · simpa [addRecursiveGo, ha] using ih (path :: acc)
          · have ha2 : env.addOk path = false := by simpa using ha
            simpa [addRecursiveGo, ha2] using ih acc
  have hadd : ∀ env : StartupEnv, ∃ l, addRecursive env = .ok l := by
    intro env
    exact hgo env env.walkEntries []
  refine ⟨hadd, ?_⟩
  intro env
  constructor
  · rintro ⟨e, he⟩
    cases hh : env.homeDir with
    | none => exact Or.inl rfl
    | some home =>
      by_cases hs : env.projectsDirStat = .notExist
      · exact Or.inr (Or.inl hs)
      · cases hk : env.newWatcherOk with
        | false => exact Or.inr (Or.inr rfl)
        | true =>
          exfalso
          unfold startSequence getClaudeProjectsDir at he
          rw [hh] at he
          dsimp only at he
          rw [if_neg hs] at he
          dsimp only at he
          rw [hk] at he
          obtain ⟨l, hl⟩ := hadd env
          rw [if_pos rfl, hl] at he
          exact Except.noConfusion he
  · intro h
    rcases h with h | h | h
    · exact ⟨"failed to get home directory",
        by simp [startSequence, getClaudeProjectsDir, h]⟩
    · cases hh : env.homeDir with
      | none => exact ⟨"failed to get home directory",
          by simp [startSequence, getClaudeProjectsDir, hh]⟩
      | some home => exact ⟨"Claude projects directory not found",
          by simp [startSequence, getClaudeProjectsDir, hh, h]⟩
    · cases hh : env.homeDir with
      | none => exact ⟨"failed to get home directory",
          by simp [startSequence, getClaudeProjectsDir, hh]⟩
      | some home =>
        by_cases hs : env.projectsDirStat = .notExist
        · exact ⟨"Claude projects directory not found",
            by simp [startSequence, getClaudeProjectsDir, hh, hs]⟩
        · exact ⟨"failed to create watcher",
            by simp [startSequence, getClaudeProjectsDir, hh, hs, h]⟩
